import Mathlib

/-!
Verification development for the telecom-offer scraping pipeline
(`src/scrape.mjs`, three concatenated variants, and `src/unnamed/part_000`).

Modelling conventions:
* JavaScript numbers are modelled by `ℚ` with exact real arithmetic
  (IEEE-754 rounding of decimal literals is not modelled; all constants and
  inputs appearing in the claims have small exact decimal values).  The one
  place where float precision changes an integer result — the 32-bit FNV
  multiplication in `fnv32a`, whose product exceeds 2^53 — is modelled
  faithfully by `roundDouble`.
* JavaScript strings are modelled by `String`; `charCodeAt` is modelled by
  `Char.toNat` (all strings reached by the theorems are in the BMP, where the
  UTF-16 code unit equals the code point).
* `toLowerCase`/`toUpperCase` are modelled for ASCII plus the Latin-1 letter
  block, which covers every character these scrapers manipulate.
* The three pipeline variants of `scrape.mjs` are embedded in namespaces
  `V1`/`V2`/`V3` (in file order); `src/unnamed/part_000` is namespace `P0`.
* Fallible JS operations (regex `match` returning `null`, functions returning
  `null`) are modelled with `Option`.
-/

set_option maxRecDepth 10000

/-- ASCII decimal digit test. -/
def isDigitCh (c : Char) : Bool := 48 ≤ c.toNat && c.toNat ≤ 57

/-- JS `toLowerCase` on one character, modelled for ASCII and the Latin-1
letter block (`À`–`Þ` except `×` gain 32), which covers all inputs here. -/
def charLowerFr (c : Char) : Char :=
  let n := c.toNat
  if 65 ≤ n && n ≤ 90 then Char.ofNat (n + 32)
  else if 192 ≤ n && n ≤ 222 && n != 215 then Char.ofNat (n + 32)
  else c

/-- JS `toUpperCase` on one character, modelled for ASCII and the Latin-1
letter block (`à`–`þ` except `÷` lose 32). -/
def charUpperFr (c : Char) : Char :=
  let n := c.toNat
  if 97 ≤ n && n ≤ 122 then Char.ofNat (n - 32)
  else if 224 ≤ n && n ≤ 254 && n != 247 then Char.ofNat (n - 32)
  else c

/-- JS `String.prototype.toLowerCase` (see `charLowerFr`). -/
def jsToLower (s : String) : String := String.mk (s.data.map charLowerFr)

/-- JS `String.prototype.toUpperCase` (see `charUpperFr`). -/
def jsToUpper (s : String) : String := String.mk (s.data.map charUpperFr)

/-- Does the character list start with the given pattern? -/
def listStartsWith : List Char → List Char → Bool
  | _, [] => true
  | [], _ :: _ => false
  | a :: as, b :: bs => a == b && listStartsWith as bs

/-- Does the character list contain the pattern as a contiguous sublist?
This models JS `String.prototype.includes`. -/
def listContainsSub : List Char → List Char → Bool
  | [], pat => pat.isEmpty
  | a :: rest, pat => listStartsWith (a :: rest) pat || listContainsSub rest pat

/-- JS `s.includes(pat)`. -/
def strContainsSub (s pat : String) : Bool := listContainsSub s.data pat.data

/-- JS `s.startsWith(pat)` (also `String.prototype.startsWith`). -/
def strStartsWith (s pat : String) : Bool := listStartsWith s.data pat.data

/-- JS `s.slice(0, n)` on UTF-16 code units (BMP strings only here). -/
def strTake (s : String) (n : ℕ) : String := String.mk (s.data.take n)

/-- Membership in the JS `\s` character class (the whitespace characters that
actually occur in this pipeline's strings: space, tab, newline, carriage
return, vertical tab, form feed and no-break space). -/
def isJsSpace (c : Char) : Bool :=
  c == ' ' || c == '\t' || c == '\n' || c == '\r' ||
    c.toNat == 11 || c.toNat == 12 || c.toNat == 160

/-- JS `String.prototype.trim`. -/
def jsTrim (s : String) : String :=
  String.mk (((s.data.dropWhile isJsSpace).reverse.dropWhile isJsSpace).reverse)

/-- Replace each maximal whitespace run by a single space
(JS `replace(/\s+/g, " ")`). -/
def collapseSpaces : List Char → List Char
  | [] => []
  | [c] => if isJsSpace c then [' '] else [c]
  | a :: b :: rest =>
    if isJsSpace a then
      if isJsSpace b then collapseSpaces (b :: rest)
      else ' ' :: collapseSpaces (b :: rest)
    else a :: collapseSpaces (b :: rest)

/-- Map no-break spaces to plain spaces (JS `replace(/ /g, " ")`). -/
def nbspToSpace (c : Char) : Char := if c.toNat == 160 then ' ' else c

/-- The `clean` helper of the second `scrape.mjs` variant (line 316):
`String(s ?? "").replace(/ /g, " ").trim()` — no whitespace collapsing. -/
def cleanV2 (s : String) : String := jsTrim (String.mk (s.data.map nbspToSpace))

/-- The `clean` helper of the third `scrape.mjs` variant (line 700):
`String(s ?? '').replace(/ /g,' ').replace(/\s+/g,' ').trim()`. -/
def cleanV3 (s : String) : String :=
  jsTrim (String.mk (collapseSpaces (s.data.map nbspToSpace)))

/-- JS `Math.round`: round half towards positive infinity. -/
def jsRound (q : ℚ) : ℤ := Rat.floor (q + 1/2)

/-- JS `Math.round(x * 10) / 10` — round to one decimal, used by every CO2
variant. -/
def round1 (q : ℚ) : ℚ := (jsRound (q * 10) : ℚ) / 10

/-- Split off the maximal leading run of ASCII digits. -/
def takeDigits : List Char → List Char × List Char
  | [] => ([], [])
  | c :: r =>
    if isDigitCh c then
      let p := takeDigits r
      (c :: p.1, p.2)
    else ([], c :: r)

/-- Numeric value of a digit list (most significant first). -/
def digitsVal (ds : List Char) : ℕ := ds.foldl (fun a c => a * 10 + (c.toNat - 48)) 0

/-- Value of an integer part plus a fractional digit list. -/
def mkDecVal (ds fs : List Char) : ℚ :=
  (digitsVal ds : ℚ) + (digitsVal fs : ℚ) / 10 ^ fs.length

/-- Match the regex `[0-9]+(?:[.,][0-9]+)?` (or with `.` only when
`commaSep = false`) anchored at the head of the list; returns the value and
the remainder.  The digit runs are taken maximally, which agrees with the JS
greedy semantics because no continuation of these patterns can begin with a
digit. -/
def unsignedNumAt (commaSep : Bool) (l : List Char) : Option (ℚ × List Char) :=
  match takeDigits l with
  | ([], _) => none
  | (ds, r) =>
    match r with
    | sep :: r2 =>
      if sep == '.' || (commaSep && sep == ',') then
        match takeDigits r2 with
        | ([], _) => some ((digitsVal ds : ℚ), r)
        | (fs, _) => some (mkDecVal ds fs, r2.drop fs.length)
      else some ((digitsVal ds : ℚ), r)
    | [] => some ((digitsVal ds : ℚ), [])

/-- Match `-?[0-9]+(?:[.,][0-9]+)?` anchored at the head of the list.
A lone `-` without a following digit fails (the JS engine then backtracks the
optional `-?` and still needs a digit, which `-` is not). -/
def signedNumAt (commaSep : Bool) (l : List Char) : Option (ℚ × List Char) :=
  match l with
  | [] => none
  | c :: r =>
    if c == '-' then
      match unsignedNumAt commaSep r with
      | some (q, rest) => some (-q, rest)
      | none => none
    else unsignedNumAt commaSep (c :: r)

/-- Leftmost match of `-?\d+(?:[.,]\d+)?` (JS `String.prototype.match`
followed by `parseFloat` of the token). -/
def firstNumSearch (commaSep : Bool) : List Char → Option ℚ
  | [] => none
  | a :: rest =>
    match signedNumAt commaSep (a :: rest) with
    | some (q, _) => some q
    | none => firstNumSearch commaSep rest

/-- Replace the first comma by a dot (JS `replace(",", ".")` without the
global flag). -/
def replaceFirstComma : List Char → List Char
  | [] => []
  | c :: r => if c == ',' then '.' :: r else c :: replaceFirstComma r

/-- Remove the first occurrence of a character (JS `replace("x", "")`). -/
def removeFirstChar (t : Char) : List Char → List Char
  | [] => []
  | c :: r => if c == t then r else c :: removeFirstChar t r

/-- A JS number that is either finite or `Infinity` (the unlimited sentinel
used by all CO2 estimators). -/
inductive JsNum where
  | fin (q : ℚ)
  | inf
deriving DecidableEq

namespace V3

/-- The `numberish` helper (`scrape.mjs` line 701): first match of
`-?\d+(?:[.,]\d+)?`, parsed with the comma normalised to a dot; `null` when
there is no match. -/
def numberish (s : String) : Option ℚ := firstNumSearch true s.data

/-- The `numCO2` helper (`scrape.mjs` line 755): `Infinity` when the
lowercased string contains `illimité`, else the first `-?\d+(\.\d+)?` match
after replacing the first comma by a dot, else 0. -/
def numCO2 (v : String) : JsNum :=
  if strContainsSub (jsToLower v) "illimité" then .inf
  else
    match firstNumSearch false (replaceFirstComma v.data) with
    | some q => .fin q
    | none => .fin 0

/-- The canonical row of the third `scrape.mjs` variant.  Fields follow the
CSV columns; `prix`/`prixInitial` are numbers-or-empty in the JS object (the
extractor stores `parseFloat` results or `''`), hence `Option ℚ`; every other
field is a string.  The CO2 column is written by the caller after
`calculateCO2` and is not read by any modelled function. -/
structure Row where
  ref : String
  operator : String
  nom : String
  prix : Option ℚ
  prixInitial : Option ℚ
  rabais : String
  tv : String
  speed : String
  sms : String
  appels : String
  roamData : String
  roamMin : String
  pays : String
  typeOffre : String
  expiration : String
  engagement : String
deriving DecidableEq

/-- The `calculateCO2` function of the third `scrape.mjs` variant
(lines 762–795).  Returns `none` for the JS `null`. -/
def calculateCO2 (row : Row) : Option ℚ :=
  let typeOffer := row.typeOffre
  -- `(n == null || !isFinite(n)) ? 0 : n`: in the exact-rational model every
  -- parsed value is finite, so only the null case remains
  let speed : ℚ := (numberish row.speed).getD 0
  let name := jsToLower row.nom
  if strContainsSub typeOffer "1 " then
    let b0 : ℚ := if speed ≤ 300 then 12.5 else 14.5
    let b1 := if strContainsSub (jsToLower row.appels) "illimité" then b0 + 0.5 else b0
    let b2 := if strContainsSub (jsToLower row.sms) "illimité" then b1 + 0.5 else b1
    let roamingGo := numCO2 row.roamData
    let b3 := b2 + (match roamingGo with | .inf => 18.3 | .fin g => g * 0.35)
    let b4 := if strContainsSub (jsToLower row.roamMin) "illimit" then b3 - 12.2 else b3
    let b5 := if strContainsSub name "noir" || strContainsSub name "black" then b4 - 0.5 else b4
    some (round1 b5)
  else if strContainsSub typeOffer "2 " || strContainsSub typeOffer "3 " then
    let b0 : ℚ :=
      if strContainsSub name "fiber" then 30
      else if strContainsSub name "5g" then 45
      else 35
    let b1 := if row.tv != "" && strContainsSub (jsToLower row.tv) "chaine" then b0 + 50 else b0
    some (round1 b1)
  else none

end V3

-- Spec-side definitions (for refinement comparison with the code) ----------

/-- Numeric reading of a canonical decimal field (`""`, `"N"` or `"N.M"`):
the value of the decimal literal, with the empty field reading as 0.  This is
the spec's "numeric value of the field" for canonical rows. -/
def decFieldValue (s : String) : ℚ :=
  match unsignedNumAt false s.data with
  | some (q, _) => q
  | none => 0

/-- Shape of a non-empty canonical decimal field: digits, optionally followed
by a dot and more digits. -/
def DigitsShape (s : String) : Prop :=
  ∃ ds fs : List Char, ds ≠ [] ∧ (∀ c ∈ ds, isDigitCh c = true) ∧
    (∀ c ∈ fs, isDigitCh c = true) ∧
    (s.data = ds ∨ (fs ≠ [] ∧ s.data = ds ++ '.' :: fs))

/-- The Mobile CO2 formula exactly as the spec (§4.4) and claim C1 state it:
base 12.5 when `speedMbps ≤ 300` (empty speed reads as 0) else 14.5, plus 0.5
for unlimited calls, plus 0.5 for unlimited SMS, plus `roamingGo * 0.35` when
the roaming-data value is finite (`some`) else 18.3, minus 12.2 for unlimited
roaming minutes, minus 0.5 when the lowercased name contains "noir" or
"black", rounded to one decimal. -/
def co2MobileSpec (speedMbps : ℚ) (callsUnlim smsUnlim : Bool) (roamingGo : Option ℚ)
    (roamMinUnlim premiumName : Bool) : ℚ :=
  let b0 : ℚ := if speedMbps ≤ 300 then 12.5 else 14.5
  let b1 := if callsUnlim then b0 + 0.5 else b0
  let b2 := if smsUnlim then b1 + 0.5 else b1
  let b3 := b2 + (match roamingGo with | none => 18.3 | some g => g * 0.35)
  let b4 := if roamMinUnlim then b3 - 12.2 else b3
  let b5 := if premiumName then b4 - 0.5 else b4
  round1 b5

-- Shared numeric-to-string helpers ----------------------------------------

/-- Exactly `k` decimal digits of `n < 10^k`, most significant first. -/
def padDigits (n k : ℕ) : String :=
  String.mk ((List.range k).map (fun i => Char.ofNat (48 + n / 10 ^ (k - 1 - i) % 10)))

/-- JS number-to-string conversion, modelled for integer and finite-decimal
values (the only values these scrapers interpolate); a value with no finite
decimal expansion falls back to a fraction form that is unreachable here. -/
def decimalRepr (q : ℚ) : String :=
  if q.den = 1 then Int.repr q.num
  else
    match (List.range 20).find? (fun k => (10 : ℕ) ^ (k + 1) % q.den == 0) with
    | some k =>
      let e := k + 1
      let n := (q * (10 : ℚ) ^ e).num.natAbs
      let sign := if q.num < 0 then "-" else ""
      sign ++ Nat.repr (n / 10 ^ e) ++ "." ++ padDigits (n % 10 ^ e) e
    | none => Int.repr q.num ++ "/" ++ Nat.repr q.den

/-- String form of a JS number-or-empty field (`''` for the empty value). -/
def optNumToString : Option ℚ → String
  | some q => decimalRepr q
  | none => ""

/-- Magnitude part of JS `parseFloat`: a decimal prefix `\d+(\.\d*)?` or
`\.\d+` read from the head of the list (exponents and `Infinity` are not
modelled: the scrapers only feed it digit/comma/dot tokens). -/
def parseFloatMag (l : List Char) : Option ℚ :=
  match takeDigits l with
  | ([], rest) =>
    match rest with
    | '.' :: r2 =>
      match takeDigits r2 with
      | ([], _) => none
      | (fs, _) => some ((digitsVal fs : ℚ) / 10 ^ fs.length)
    | _ => none
  | (ds, rest) =>
    match rest with
    | '.' :: r2 => some (mkDecVal ds (takeDigits r2).1)
    | _ => some ((digitsVal ds : ℚ))

/-- JS `parseFloat`: skip leading whitespace, optional sign, then a decimal
prefix; `NaN` is modelled as `none`. -/
def jsParseFloat (s : String) : Option ℚ :=
  let l := s.data.dropWhile isJsSpace
  match l with
  | '-' :: r => (parseFloatMag r).map (fun q => -q)
  | '+' :: r => parseFloatMag r
  | _ => parseFloatMag l

/-- JS `Number(s)` for a string: empty (after trimming) is 0, otherwise the
whole string must be a signed decimal literal, else `NaN` (`none`). -/
def jsNumberOfString (s : String) : Option ℚ :=
  let l := (jsTrim s).data
  if l.isEmpty then some 0
  else
    match signedNumAt false l with
    | some (q, []) => some q
    | _ => none

namespace V2

/-- The canonical row of the second `scrape.mjs` variant: `normRow`
(lines 370–392) stores strings in every field modelled here.  The CO2 column
(a number, written on line 390) is modelled by `normRowCO2`. -/
structure Row where
  ref : String
  operator : String
  nom : String
  prix : String
  prixInitial : String
  rabais : String
  tv : String
  speed : String
  sms : String
  appels : String
  roamData : String
  roamMin : String
  pays : String
  typeOffre : String
  expiration : String
  engagement : String
deriving DecidableEq

/-- The `hasInf` helper (`scrape.mjs` line 317). -/
def hasInf (s : String) : Bool := strContainsSub (jsToLower (cleanV2 s)) "illimité"

/-- The `toNum` helper (`scrape.mjs` lines 318–324). -/
def toNum (s0 : String) : JsNum :=
  let s := cleanV2 s0
  if s == "" || s == "-" || jsToLower s == "null" then .fin 0
  else if hasInf s then .inf
  else
    match firstNumSearch true s.data with
    | some q => .fin q
    | none => .fin 0

/-- JS comparison `v <= x` where `v` may be `Infinity`. -/
def jsNumLe (v : JsNum) (x : ℚ) : Bool :=
  match v with
  | .fin q => decide (q ≤ x)
  | .inf => false

/-- The `isTvOn` helper (`scrape.mjs` lines 325–329). -/
def isTvOn (tv : String) : Bool :=
  let v := jsToLower (cleanV2 tv)
  if v == "" || v == "non" then false
  else strContainsSub v "chaine" || strContainsSub v "chaîne" || strContainsSub v "tv"

/-- The `estimateCO2` function of the second `scrape.mjs` variant
(lines 331–367).  Note that it clamps the Mobile result at 0
(`Math.max(0, …)`) and returns the number 0 — not `null` — for any type
string outside the `1 `/`2 `/`3 ` prefixes. -/
def estimateCO2 (row : Row) : ℚ :=
  let typeOffer := cleanV2 row.typeOffre
  let speed := toNum row.speed
  let dataItin := cleanV2 row.roamData
  let minRoam := cleanV2 row.roamMin
  let name := jsToLower (cleanV2 row.nom)
  if strStartsWith typeOffer "1 " then
    let b0 : ℚ := if jsNumLe speed 300 then 12.5 else 14.5
    let b1 := if strContainsSub (jsToLower (cleanV2 row.appels)) "illimité" then b0 + 0.5 else b0
    let b2 := if strContainsSub (jsToLower (cleanV2 row.sms)) "illimité" then b1 + 0.5 else b1
    let roamGo := toNum dataItin
    let b3 := b2 + (match roamGo with | .inf => 18.3 | .fin g => g * 0.35)
    let b4 := if toNum minRoam = JsNum.inf then b3 + (-12.2) else b3
    let b5 := if strContainsSub name "noir" || strContainsSub name "black" then b4 + (-0.5) else b4
    max 0 (round1 b5)
  else if strStartsWith typeOffer "2 " || strStartsWith typeOffer "3 " then
    let b0 : ℚ :=
      if strContainsSub name "fiber" then 30
      else if strContainsSub name "5g" then 45
      else 35
    let b1 := if isTvOn row.tv then b0 + 50 else b0
    round1 b1
  else 0

/-- The `toMbps` helper (`scrape.mjs` lines 286–291). -/
def toMbps (numStr unitGuess : String) : String :=
  if numStr == "" then ""
  else
    match jsParseFloat (String.mk (replaceFirstComma numStr.data)) with
    | none => ""
    | some n =>
      if strContainsSub (jsToLower unitGuess) "g" then Int.repr (jsRound (n * 1000))
      else Int.repr (jsRound n)

/-- Arguments of `normRow` (`scrape.mjs` line 370), one per destructured
field of the JS parameter object (`type` is renamed `ty`). -/
structure NormArgs where
  ref : String
  operator : String
  title : String
  price : String
  discount : String
  hasTV : Bool
  speedVal : String
  speedUnit : String
  smsCH : String
  appelsCH : String
  roamData : String
  roamMin : String
  countries : String
  ty : String
deriving DecidableEq

/-- The `normRow` function of the second `scrape.mjs` variant
(lines 370–389): builds the canonical row.  Note the roaming fields are
normalised by the test `/illimit/i` only — an English "unlimited" is left
unchanged. -/
def normRow (a : NormArgs) : Row :=
  { ref := a.ref
    operator := a.operator
    nom := a.title
    prix := a.price
    prixInitial := ""
    rabais := if a.discount != "" then a.discount ++ "%" else ""
    tv := if a.hasTV then "280 Chaines" else "Non"
    speed := toMbps a.speedVal a.speedUnit
    sms := a.smsCH
    appels := a.appelsCH
    roamData := if strContainsSub (jsToLower a.roamData) "illimit" then "Illimité" else a.roamData
    roamMin := if strContainsSub (jsToLower a.roamMin) "illimit" then "Illimité" else a.roamMin
    pays := if a.countries == "" then "Aucun" else a.countries
    typeOffre := a.ty
    expiration := ""
    engagement := "Sans engagement" }

/-- The CO2 value written into the row by `normRow` (line 390). -/
def normRowCO2 (a : NormArgs) : ℚ := estimateCO2 (normRow a)

end V2

namespace P0

/-- A JS value as stored in the rows of `src/unnamed/part_000`: parsed fields
are numbers (possibly `Infinity`, the representation `parseDataGo` and
`parseMinutes` use for unlimited quantities) while unparsed fields are
strings. -/
inductive JsVal where
  | str (s : String)
  | num (q : ℚ)
  | inf
deriving DecidableEq

/-- JS falsiness for a field value (`""` and `0`; `Infinity` is truthy). -/
def jsValFalsy : JsVal → Bool
  | .str s => s == ""
  | .num q => q == 0
  | .inf => false

/-- JS `String(v)`. -/
def jsValToString : JsVal → String
  | .str s => s
  | .num q => decimalRepr q
  | .inf => "Infinity"

/-- Match the regex `\d+\.?\d*` anchored at the head of the list. -/
def numNoSignAt (l : List Char) : Option ℚ :=
  match takeDigits l with
  | ([], _) => none
  | (ds, rest) =>
    match rest with
    | '.' :: r2 => some (mkDecVal ds (takeDigits r2).1)
    | _ => some ((digitsVal ds : ℚ))

/-- Leftmost match of `\d+\.?\d*`. -/
def firstNumNoSign : List Char → Option ℚ
  | [] => none
  | a :: rest =>
    match numNoSignAt (a :: rest) with
    | some q => some q
    | none => firstNumNoSign rest

/-- The `numForCO2` helper of `part_000` (lines 90–96).  Note that the
numeric value `Infinity` — which is exactly how `parseDataGo`/`parseMinutes`
represent an unlimited quantity in the row — stringifies to `"Infinity"`,
contains no `illimit`, matches no digits, and therefore yields 0. -/
def numForCO2 (v : JsVal) : JsNum :=
  if jsValFalsy v then .fin 0
  else if strContainsSub (jsToLower (jsValToString v)) "illimit" then .inf
  else
    match firstNumNoSign (replaceFirstComma (jsValToString v).data) with
    | some q => .fin q
    | none => .fin 0

/-- JS `v && v <= x` for a field value: falsy values short-circuit to the
false branch; strings coerce through `Number`. -/
def jsValTruthyLe (v : JsVal) (x : ℚ) : Bool :=
  if jsValFalsy v then false
  else
    match v with
    | .num q => decide (q ≤ x)
    | .inf => false
    | .str s =>
      match jsNumberOfString s with
      | some q => decide (q ≤ x)
      | none => false

/-- The fields of a `part_000` row that `calculateCO2` (lines 97–129) reads.
`speed`, `dataItin` and `minRoam` hold the parsed values the scraper stores
(numbers, `Infinity`, or `""`). -/
structure CalcRow where
  typeOffre : String
  speed : JsVal
  dataItin : JsVal
  minRoam : JsVal
  tv : String
  nom : String
  appels : String
  sms : String
deriving DecidableEq

/-- The `calculateCO2` function of `src/unnamed/part_000` (lines 97–129).
Returns `none` for the JS `null`. -/
def calculateCO2 (row : CalcRow) : Option ℚ :=
  let tv := if row.tv == "" then "Non" else row.tv
  let name := jsToLower row.nom
  if strContainsSub row.typeOffre "1 " then
    let b0 : ℚ := if jsValTruthyLe row.speed 300 then 12.5 else 14.5
    let b1 := if strContainsSub (jsToLower row.appels) "illimit" then b0 + 0.5 else b0
    let b2 := if strContainsSub (jsToLower row.sms) "illimit" then b1 + 0.5 else b1
    let roamingGo := numForCO2 row.dataItin
    let b3 := b2 + (match roamingGo with | .inf => 18.3 | .fin g => g * 0.35)
    let b4 := if numForCO2 row.minRoam = JsNum.inf then b3 - 12.2 else b3
    let b5 := if strContainsSub name "noir" || strContainsSub name "black" then b4 - 0.5 else b4
    some (round1 b5)
  else if strContainsSub row.typeOffre "2 " || strContainsSub row.typeOffre "3 " then
    let b0 : ℚ :=
      if strContainsSub name "fiber" then 30
      else if strContainsSub name "5g" then 45
      else 35
    let b1 := if tv != "Non" && strContainsSub (jsToLower tv) "chaine" then b0 + 50 else b0
    some (round1 b1)
  else none

end P0

-- CSV escaping --------------------------------------------------------------

/-- Does the list contain a comma, double quote or newline? -/
def hasSpecialL : List Char → Bool
  | [] => false
  | c :: r => c == ',' || c == '"' || c == '\n' || hasSpecialL r

/-- Double every double quote (JS `replace(/"/g, '""')`). -/
def dquoteL : List Char → List Char
  | [] => []
  | c :: r => if c == '"' then '"' :: '"' :: dquoteL r else c :: dquoteL r

/-- The `csvEscape` function of `src/unnamed/part_000` (lines 152–158):
wrap in double quotes, doubling internal quotes, exactly when the value
contains a comma, double quote or newline. -/
def P0.csvEscape (v : String) : String :=
  if hasSpecialL v.data then "\"" ++ String.mk (dquoteL v.data) ++ "\"" else v

/-- The per-cell logic of `toCSV` in the third `scrape.mjs` variant
(lines 705–713): double the quotes first, then wrap when the result contains
a comma, double quote or newline. -/
def V3.csvCell (v : String) : String :=
  let s := String.mk (dquoteL v.data)
  if hasSpecialL s.data then "\"" ++ s ++ "\"" else s

namespace V3

-- Extraction (extractByRegex, scrape.mjs lines 905–956) ---------------------

/-- Match a literal pattern case-insensitively at the head of the list,
returning the remainder. -/
def matchLitCiAt : List Char → List Char → Option (List Char)
  | l, [] => some l
  | [], _ :: _ => none
  | a :: as, b :: bs =>
    if charLowerFr a == charLowerFr b then matchLitCiAt as bs else none

/-- Leftmost match of `/CHF\s*([0-9]+(?:[.,][0-9]+)?)/i`, returning the
captured value. -/
def chfNumSearch : List Char → Option ℚ
  | [] => none
  | a :: rest =>
    match matchLitCiAt (a :: rest) ['c', 'h', 'f'] with
    | some r1 =>
      match unsignedNumAt true (r1.dropWhile isJsSpace) with
      | some (q, _) => some q
      | none => chfNumSearch rest
    | none => chfNumSearch rest

/-- Leftmost match of `/([0-9]+(?:[.,][0-9]+)?)\s*CHF/i`, returning the
captured value.  Maximal munch is exact here: shortening the greedy digit
runs leaves a digit as the next character, which can never match `\s*C`. -/
def numChfSearch : List Char → Option ℚ
  | [] => none
  | a :: rest =>
    match unsignedNumAt true (a :: rest) with
    | some (q, r) =>
      if (matchLitCiAt (r.dropWhile isJsSpace) ['c', 'h', 'f']).isSome then some q
      else numChfSearch rest
    | none => numChfSearch rest

/-- The current-price extraction `mNow` of `extractByRegex` (line 908):
first the `CHF`-prefixed pattern, then the `CHF`-suffixed one. -/
def priceNowOf (t : String) : Option ℚ :=
  match chfNumSearch t.data with
  | some q => some q
  | none => numChfSearch t.data

/-- Leftmost match of `/au lieu de\s*(?:CHF\s*)?([0-9]+(?:[.,][0-9]+)?)/i`
(the previous-price extraction `mOld`, line 909).  When `CHF` is present but
not followed by a number the JS engine backtracks to the no-`CHF`
alternative, which then requires a digit at `C` and fails as well — so the
position simply fails, as modelled. -/
def auLieuSearch : List Char → Option ℚ
  | [] => none
  | a :: rest =>
    match matchLitCiAt (a :: rest) "au lieu de".data with
    | some r1 =>
      let r2 := r1.dropWhile isJsSpace
      let r3 :=
        match matchLitCiAt r2 ['c', 'h', 'f'] with
        | some r => r.dropWhile isJsSpace
        | none => r2
      match unsignedNumAt true r3 with
      | some (q, _) => some q
      | none => auLieuSearch rest
    | none => auLieuSearch rest

/-- The previous-price extraction of `extractByRegex` on the cleaned text. -/
def priceOldOf (t : String) : Option ℚ := auLieuSearch t.data

/-- Leftmost match of `/(\d{1,3})\s*%/`, returning the captured digits
(line 913).  At a position whose maximal digit run is longer than 3 every
greedy choice leaves a digit before `\s*%`, so the position fails and the
engine advances — which is what the recursion does. -/
def percentTokSearch : List Char → Option String
  | [] => none
  | a :: rest =>
    match takeDigits (a :: rest) with
    | ([], _) => percentTokSearch rest
    | (ds, r) =>
      if ds.length ≤ 3 && ((r.dropWhile isJsSpace).head? == some '%') then
        some (String.mk ds)
      else percentTokSearch rest

/-- The discount computation of `extractByRegex` (lines 908–917): the first
explicit percent token wins; otherwise, when both extracted prices are truthy
(non-empty and non-zero), the discount is `round((1 - now/old) * 100)`
stringified; otherwise the empty string. -/
def extractDiscount (text : String) : String :=
  let t := cleanV3 text
  let priceNow := priceNowOf t
  let priceOld := priceOldOf t
  match percentTokSearch t.data with
  | some d => d
  | none =>
    match priceNow, priceOld with
    | some p, some q => if p ≠ 0 ∧ q ≠ 0 then Int.repr (jsRound ((1 - p / q) * 100)) else ""
    | _, _ => ""

-- Canonicalisation (canonicalize, scrape.mjs lines 798–840) -----------------

/-- The unlimited-variant test of `normInf`
(`/illimit|unlimited|ohne limit|flat|illimitato|∞/i`). -/
def unlimTest (v : String) : Bool :=
  let lv := jsToLower v
  strContainsSub lv "illimit" || strContainsSub lv "unlimited" ||
    strContainsSub lv "ohne limit" || strContainsSub lv "flat" ||
    strContainsSub lv "illimitato" || strContainsSub lv "∞"

/-- The `normInf` helper of `canonicalize` (lines 800–802). -/
def normInf (v : String) : String :=
  if unlimTest v then "Illimité"
  else if jsTrim v == "-" then "" else v

/-- Leftmost match of `/(\d+(?:[.,]\d+)?)\s*u(?:bit|bps)?/i` for a unit
letter `u` (the `g`/`m` speed patterns of `canonicalize`, lines 809–810);
the optional `bit|bps` suffix never affects success. -/
def unitNumSearch (unit : Char) : List Char → Option ℚ
  | [] => none
  | a :: rest =>
    match unsignedNumAt true (a :: rest) with
    | some (q, r) =>
      if charLowerFr ((r.dropWhile isJsSpace).headD ' ') == unit then some q
      else unitNumSearch unit rest
    | none => unitNumSearch unit rest

/-- Leftmost match of `/280\s*cha/i` (the TV tier test, line 817). -/
def tv280chaSearch : List Char → Bool
  | [] => false
  | a :: rest =>
    (match matchLitCiAt (a :: rest) ['2', '8', '0'] with
     | some r => (matchLitCiAt (r.dropWhile isJsSpace) ['c', 'h', 'a']).isSome
     | none => false) || tv280chaSearch rest

/-- The `canonicalize` function of the third `scrape.mjs` variant
(lines 798–840).  It rewrites the roaming, speed, TV, type, discount, price
and term/expiration fields; every other field — including
`Pays voisins inclus` — is passed through unchanged. -/
def canonicalize (row : Row) (pageText : String) : Row :=
  let roamData := normInf row.roamData
  let roamMin := normInf row.roamMin
  let sp0 := row.speed
  let sp1 :=
    match unitNumSearch 'g' sp0.data with
    | some g => Int.repr (jsRound (g * 1000))
    | none =>
      match unitNumSearch 'm' sp0.data with
      | some m => Int.repr (jsRound m)
      | none => sp0
  let speed := String.mk (sp1.data.filter isDigitCh)
  let tvt := jsToLower row.tv
  let tv :=
    if tv280chaSearch tvt.data then "280 Chaines"
    else if strContainsSub tvt "tv" || strContainsSub tvt "replay" || strContainsSub tvt "box" then
      "280 Chaines"
    else "Non"
  let page := jsToLower pageText
  let ty := jsToLower row.typeOffre
  let isHome :=
    (strContainsSub page "home" || strContainsSub page "internet" ||
      strContainsSub page "cable" || strContainsSub page "fiber" ||
      strContainsSub page "fibre" || strContainsSub page "box" ||
      strContainsSub page "tv" || strContainsSub page "5g home") ||
    (strContainsSub ty "home" || strContainsSub ty "cable" ||
      strContainsSub ty "fiber" || strContainsSub ty "tv")
  let hasTV := tv != "Non"
  let typeOffre :=
    if isHome then (if hasTV then "3 Home Cable Box + TV" else "2 Home Cable Box")
    else "1 SIM ( Mobile )"
  let rb := String.mk (replaceFirstComma (removeFirstChar '%' row.rabais.data))
  let rabais :=
    match numberish rb with
    | some q => Int.repr (jsRound q)
    | none => ""
  let prix := numberish (optNumToString row.prix)
  let prixInitial := numberish (optNumToString row.prixInitial)
  let engagement :=
    if row.engagement == "" && strContainsSub page "sans engagement" then "Sans engagement"
    else row.engagement
  let expiration :=
    if row.expiration == "" &&
        (strContainsSub page "remise permanente" || strContainsSub page "rabais permanent") then
      "Remise permanente"
    else row.expiration
  { row with
    roamData := roamData, roamMin := roamMin, speed := speed, tv := tv,
    typeOffre := typeOffre, rabais := rabais, prix := prix,
    prixInitial := prixInitial, engagement := engagement, expiration := expiration }

-- Reference generation (scrape.mjs lines 715–752) ---------------------------

/-- ASCII alphanumeric test (`[a-zA-Z0-9]`). -/
def isAlnumCh (c : Char) : Bool :=
  (48 ≤ c.toNat && c.toNat ≤ 57) || (65 ≤ c.toNat && c.toNat ≤ 90) ||
    (97 ≤ c.toNat && c.toNat ≤ 122)

/-- Strip the accent of a Latin-1 letter, modelling
`normalize('NFD').replace(/[̀-ͯ]/g, '')` on the character range
these operators and offer names use; characters without a Latin-1
decomposition are left unchanged (and fall to the non-alphanumeric
replacement below). -/
def latinBase (c : Char) : Char :=
  match c with
  | 'à' | 'á' | 'â' | 'ã' | 'ä' | 'å' => 'a'
  | 'è' | 'é' | 'ê' | 'ë' => 'e'
  | 'ì' | 'í' | 'î' | 'ï' => 'i'
  | 'ò' | 'ó' | 'ô' | 'õ' | 'ö' => 'o'
  | 'ù' | 'ú' | 'û' | 'ü' => 'u'
  | 'ç' => 'c' | 'ñ' => 'n' | 'ý' => 'y' | 'ÿ' => 'y'
  | 'À' | 'Á' | 'Â' | 'Ã' | 'Ä' | 'Å' => 'A'
  | 'È' | 'É' | 'Ê' | 'Ë' => 'E'
  | 'Ì' | 'Í' | 'Î' | 'Ï' => 'I'
  | 'Ò' | 'Ó' | 'Ô' | 'Õ' | 'Ö' => 'O'
  | 'Ù' | 'Ú' | 'Û' | 'Ü' => 'U'
  | 'Ç' => 'C' | 'Ñ' => 'N' | 'Ý' => 'Y'
  | _ => c

/-- Replace each maximal run of non-alphanumeric characters by one separator
(JS `replace(/[^a-zA-Z0-9]+/g, sep)`); `inRun` records whether the previous
character was part of such a run. -/
def slugRunsGo (sep : Char) (inRun : Bool) : List Char → List Char
  | [] => []
  | c :: r =>
    if isAlnumCh c then c :: slugRunsGo sep false r
    else if inRun then slugRunsGo sep true r
    else sep :: slugRunsGo sep true r

/-- JS `replace(/[^a-zA-Z0-9]+/g, sep)`. -/
def slugRuns (sep : Char) (l : List Char) : List Char := slugRunsGo sep false l

/-- Strip one leading separator (half of JS `replace(/^_|_$/g, '')`). -/
def stripLeadSep (sep : Char) : List Char → List Char
  | [] => []
  | c :: r => if c == sep then r else c :: r

/-- Strip one leading and one trailing separator
(JS `replace(/^_|_$/g, '')`). -/
def stripEdgeSep (sep : Char) (l : List Char) : List Char :=
  (stripLeadSep sep (stripLeadSep sep l).reverse).reverse

/-- The `slugUpper` helper (`scrape.mjs` lines 716–721). -/
def slugUpper (s : String) : String :=
  String.mk ((stripEdgeSep '_' (slugRuns '_' (s.data.map latinBase))).map charUpperFr)

/-- Round a non-negative integer to the nearest IEEE-754 double (ties to
even) — the precision loss JS applies to the product inside `fnv32a`, whose
value can exceed 2^53. -/
def roundDouble (n : ℕ) : ℕ :=
  if n < 2 ^ 53 then n
  else
    let e := n.log2 - 52
    let q := n / 2 ^ e
    let r := n % 2 ^ e
    let half := 2 ^ (e - 1)
    if r < half then q * 2 ^ e
    else if half < r then (q + 1) * 2 ^ e
    else (if q % 2 = 0 then q else q + 1) * 2 ^ e

/-- One step of the `fnv32a` loop (`scrape.mjs` lines 722–729): XOR the code
unit into the low 32 bits, then multiply by the FNV prime as a JS double
(hence `roundDouble`). -/
def fnv32aStep (h c : ℕ) : ℕ := roundDouble (((h % 4294967296) ^^^ c) * 16777619)

/-- The `fnv32a` hash value before hex formatting: fold the string's UTF-16
code units through `fnv32aStep` from the offset basis, then take the low 32
bits (`h >>> 0`). -/
def fnv32aVal (s : String) : ℕ :=
  (s.data.foldl (fun h c => fnv32aStep h c.toNat) 0x811c9dc5) % 4294967296

/-- Uppercase hex digit. -/
def hexDigitUpper (d : ℕ) : Char :=
  if d < 10 then Char.ofNat (48 + d) else Char.ofNat (55 + d)

/-- Eight uppercase hex digits of `n < 2^32`
(JS `toString(16).toUpperCase().padStart(8, '0')`). -/
def toHex8 (n : ℕ) : String :=
  String.mk ((List.range 8).map (fun i => hexDigitUpper (n / 16 ^ (7 - i) % 16)))

/-- The `typeCode` helper (`scrape.mjs` lines 730–736): map the offer-type
string to `T1`/`T2`/`T3` by its first character, with fallback `TX`. -/
def typeCode (t : String) : String :=
  if strStartsWith t "1" then "T1"
  else if strStartsWith t "2" then "T2"
  else if strStartsWith t "3" then "T3"
  else "TX"

/-- A source URL as consumed by `makeRef`: `new URL(url).pathname` is the
`pathname` field; everything else about the URL (host, query, fragment) is
`rest` and is never read by `makeRef`. -/
structure Url where
  pathname : String
  rest : String
deriving DecidableEq

/-- The `makeRef` function (`scrape.mjs` lines 737–745):
`OPERATOR8_TC_NAMESLUG24_HASH8`, with the hash computed by `fnv32a` over
`pathname + "|" + nameSlug` only. -/
def makeRef (operator title : String) (url : Url) (typeOffre : String) : String :=
  let op := strTake (slugUpper operator) 8
  let tc := typeCode typeOffre
  let sl := strTake (slugUpper title) 24
  let pathOnly := url.pathname
  let h8 := strTake (toHex8 (fnv32aVal (pathOnly ++ "|" ++ sl))) 8
  op ++ "_" ++ tc ++ "_" ++ sl ++ "_" ++ h8

/-- The candidate tried at attempt `k` by the `ensureUniqueRef` loop
(`scrape.mjs` lines 746–752): the bare reference first, then `ref_2`,
`ref_3`, …. -/
def candidateRef (ref : String) : ℕ → String
  | 0 => ref
  | k + 1 => ref ++ "_" ++ Nat.repr (k + 2)

/-- The `while (seenRefs.has(r))` loop: try candidates until one is not in
the seen set, with explicit fuel (the loop always terminates because the
candidates are pairwise distinct and the set is finite). -/
def findFreeRef (seen : List String) (ref : String) : ℕ → ℕ → Option String
  | 0, _ => none
  | fuel + 1, k =>
    let c := candidateRef ref k
    if c ∈ seen then findFreeRef seen ref fuel (k + 1) else some c

/-- The `ensureUniqueRef` function (`scrape.mjs` lines 746–752), with the
module-global `seenRefs` set made an explicit argument: returns the assigned
reference and the updated seen set.  Fuel `|seen| + 1` suffices because the
candidates are pairwise distinct. -/
def ensureUniqueRef (seen : List String) (ref : String) : Option (String × List String) :=
  match findFreeRef seen ref (seen.length + 1) 0 with
  | some r => some (r, r :: seen)
  | none => none

end V3

namespace P0

-- Reference generation (part_000 lines 38–47, 170–176) ----------------------

/-- The `slugify` helper of `part_000` (lines 38–43): strip accents
(`normalize("NFKD")` + combining-mark removal, modelled by `latinBase`),
replace non-alphanumeric runs by `-`, strip one leading and one trailing
`-`, lowercase. -/
def slugify (s : String) : String :=
  String.mk ((V3.stripEdgeSep '-' (V3.slugRuns '-' (s.data.map V3.latinBase))).map charLowerFr)

/-- UTF-8 bytes of one code point. -/
def utf8Bytes (c : ℕ) : List ℕ :=
  if c < 0x80 then [c]
  else if c < 0x800 then [0xC0 ||| (c >>> 6), 0x80 ||| (c &&& 0x3F)]
  else if c < 0x10000 then
    [0xE0 ||| (c >>> 12), 0x80 ||| ((c >>> 6) &&& 0x3F), 0x80 ||| (c &&& 0x3F)]
  else
    [0xF0 ||| (c >>> 18), 0x80 ||| ((c >>> 12) &&& 0x3F),
      0x80 ||| ((c >>> 6) &&& 0x3F), 0x80 ||| (c &&& 0x3F)]

/-- UTF-8 encoding of a string (what `crypto.createHash("sha1").update(s)`
hashes). -/
def strUtf8 (s : String) : List ℕ := s.data.flatMap (fun c => utf8Bytes c.toNat)

/-- Left rotation of a 32-bit word. -/
def rotl32 (n x : ℕ) : ℕ := ((x <<< n) ||| (x >>> (32 - n))) % 4294967296

/-- SHA-1 message padding: append `0x80`, zero bytes to 56 mod 64, then the
bit length as eight big-endian bytes. -/
def sha1Pad (msg : List ℕ) : List ℕ :=
  let len := msg.length
  let zeros := (64 + 55 - len % 64) % 64
  let bitLen := len * 8
  msg ++ 0x80 :: List.replicate zeros 0 ++
    (List.range 8).map (fun i => bitLen / 2 ^ (8 * (7 - i)) % 256)

/-- Split a list into chunks of 64 bytes (the padded length is a multiple of
64; `n` is fuel). -/
def chunks64 : ℕ → List ℕ → List (List ℕ)
  | 0, _ => []
  | _, [] => []
  | n + 1, l => l.take 64 :: chunks64 n (l.drop 64)

/-- The 16 initial 32-bit big-endian words of a 64-byte chunk. -/
def chunkWords (chunk : List ℕ) : List ℕ :=
  (List.range 16).map (fun i =>
    chunk.getD (4 * i) 0 * 16777216 + chunk.getD (4 * i + 1) 0 * 65536 +
      chunk.getD (4 * i + 2) 0 * 256 + chunk.getD (4 * i + 3) 0)

/-- Extend the 16 words to the 80-word schedule:
`w[i] = rotl1 (w[i-3] ^ w[i-8] ^ w[i-14] ^ w[i-16])`. -/
def sha1Schedule (init : List ℕ) : List ℕ :=
  (List.range 64).foldl
    (fun w _ =>
      let i := w.length
      w ++ [rotl32 1 (((w.getD (i - 3) 0 ^^^ w.getD (i - 8) 0) ^^^ w.getD (i - 14) 0) ^^^
        w.getD (i - 16) 0)])
    init

/-- The round function and constant for round `i`. -/
def sha1FK (i b c d : ℕ) : ℕ × ℕ :=
  if i < 20 then ((b &&& c) ||| ((b ^^^ 4294967295) &&& d), 0x5A827999)
  else if i < 40 then ((b ^^^ c) ^^^ d, 0x6ED9EBA1)
  else if i < 60 then (((b &&& c) ||| (b &&& d)) ||| (c &&& d), 0x8F1BBCDC)
  else ((b ^^^ c) ^^^ d, 0xCA62C1D6)

/-- Process one 64-byte chunk into the running state `(h0, …, h4)`. -/
def sha1Chunk (st : ℕ × ℕ × ℕ × ℕ × ℕ) (chunk : List ℕ) : ℕ × ℕ × ℕ × ℕ × ℕ :=
  let w := sha1Schedule (chunkWords chunk)
  let (h0, h1, h2, h3, h4) := st
  let fin :=
    (List.range 80).foldl
      (fun (s : ℕ × ℕ × ℕ × ℕ × ℕ) i =>
        let (a, b, c, d, e) := s
        let (f, k) := sha1FK i b c d
        let temp := (rotl32 5 a + f + e + k + w.getD i 0) % 4294967296
        (temp, a, rotl32 30 b, c, d))
      (h0, h1, h2, h3, h4)
  ((h0 + fin.1) % 4294967296, (h1 + fin.2.1) % 4294967296, (h2 + fin.2.2.1) % 4294967296,
    (h3 + fin.2.2.2.1) % 4294967296, (h4 + fin.2.2.2.2) % 4294967296)

/-- Lowercase hex digit. -/
def hexDigitLower (d : ℕ) : Char :=
  if d < 10 then Char.ofNat (48 + d) else Char.ofNat (87 + d)

/-- Eight lowercase hex digits of `n < 2^32`. -/
def toHex8Lower (n : ℕ) : String :=
  String.mk ((List.range 8).map (fun i => hexDigitLower (n / 16 ^ (7 - i) % 16)))

/-- SHA-1 of a byte list, as a 40-character lowercase hex string
(`crypto.createHash("sha1").digest("hex")`). -/
def sha1Hex (msg : List ℕ) : String :=
  let padded := sha1Pad msg
  let st :=
    (chunks64 (padded.length / 64 + 1) padded).foldl sha1Chunk
      (0x67452301, 0xEFCDAB89, 0x98BADCFE, 0x10325476, 0xC3D2E1F0)
  toHex8Lower st.1 ++ toHex8Lower st.2.1 ++ toHex8Lower st.2.2.1 ++
    toHex8Lower st.2.2.2.1 ++ toHex8Lower st.2.2.2.2

/-- The `shortHash` helper of `part_000` (lines 44–46): the first `len` hex
characters of the SHA-1 of the string. -/
def shortHash (s : String) (len : ℕ) : String := strTake (sha1Hex (strUtf8 s)) len

/-- The `generateReference` function of `part_000` (lines 170–176).  `ts` is
the millisecond timestamp the caller passes as `Date.now()`; note that its
first ten digits — the epoch seconds — are hashed into the reference. -/
def generateReference (operator name : String) (price : ℚ) (ts : ℕ) : String :=
  let slug0 := strTake (slugify name) 40
  let slug := if slug0 == "" then "offre" else slug0
  let p := Int.repr (jsRound (price * 100))
  let h := shortHash (operator ++ "|" ++ name ++ "|" ++ decimalRepr price ++ "|" ++
    strTake (Nat.repr ts) 10) 6
  jsToUpper ("YALLO-" ++ slug ++ "-" ++ p ++ "-" ++ h)

end P0

-- Concrete inputs used by the claim theorems --------------------------------

/-- The C1 example row — Mobile, speed 300, unlimited calls/SMS/roaming data
and minutes, name "Yallo Black" — in the third variant's representation. -/
def yalloBlackRow : V3.Row :=
  { ref := "", operator := "Yallo", nom := "Yallo Black", prix := none, prixInitial := none,
    rabais := "", tv := "Non", speed := "300", sms := "Illimité", appels := "Illimité",
    roamData := "Illimité", roamMin := "Illimité", pays := "Aucun",
    typeOffre := "1 SIM ( Mobile )", expiration := "", engagement := "" }

/-- The same C1 example row in the `part_000` representation: that scraper
stores the numeric `Infinity` for unlimited roaming data and minutes
(`parseDataGo`/`parseMinutes`, lines 74–87). -/
def p0YalloBlackRow : P0.CalcRow :=
  { typeOffre := "1 SIM ( Mobile )", speed := .num 300, dataItin := .inf, minRoam := .inf,
    tv := "Non", nom := "Yallo Black", appels := "Illimité", sms := "Illimité" }

/-- A canonical Mobile row whose CO2 offsets sum below zero (C4): empty
speed and roaming data, unlimited roaming minutes, "black" in the name —
12.5 − 12.2 − 0.5 = −0.2. -/
def negRowV3 : V3.Row :=
  { ref := "", operator := "Yallo", nom := "black friday", prix := none, prixInitial := none,
    rabais := "", tv := "Non", speed := "", sms := "", appels := "", roamData := "",
    roamMin := "Illimité", pays := "", typeOffre := "1 SIM ( Mobile )", expiration := "",
    engagement := "" }

/-- The same row for the second variant's `estimateCO2` (which clamps). -/
def negRowV2 : V2.Row :=
  { ref := "", operator := "Yallo", nom := "black friday", prix := "", prixInitial := "",
    rabais := "", tv := "Non", speed := "", sms := "", appels := "", roamData := "",
    roamMin := "Illimité", pays := "", typeOffre := "1 SIM ( Mobile )", expiration := "",
    engagement := "" }

/-- Rows whose offer-type string is none of the three canonical categories
(C5). -/
def otherRowV3 : V3.Row :=
  { ref := "", operator := "Salt", nom := "Offre", prix := none, prixInitial := none,
    rabais := "", tv := "Non", speed := "", sms := "", appels := "", roamData := "",
    roamMin := "", pays := "", typeOffre := "Autre", expiration := "", engagement := "" }

/-- See `otherRowV3`, for `part_000`. -/
def otherRowP0 : P0.CalcRow :=
  { typeOffre := "Autre", speed := .num 0, dataItin := .str "", minRoam := .str "",
    tv := "Non", nom := "Offre", appels := "", sms := "" }

/-- See `otherRowV3`, for the second variant. -/
def otherRowV2 : V2.Row :=
  { ref := "", operator := "Salt", nom := "Offre", prix := "", prixInitial := "",
    rabais := "", tv := "Non", speed := "", sms := "", appels := "", roamData := "",
    roamMin := "", pays := "", typeOffre := "Autre", expiration := "", engagement := "" }

/-- A row whose roaming fields hold unlimited textual variants (C6). -/
def unlimRow : V3.Row :=
  { ref := "", operator := "", nom := "", prix := none, prixInitial := none, rabais := "",
    tv := "", speed := "", sms := "", appels := "", roamData := "unlimited",
    roamMin := "Illimité ", pays := "", typeOffre := "", expiration := "", engagement := "" }

/-- The `normRow` arguments with the English variant "unlimited" in the
roaming-data field (C6). -/
def unlimArgs : V2.NormArgs :=
  { ref := "", operator := "", title := "", price := "", discount := "", hasTV := false,
    speedVal := "", speedUnit := "", smsCH := "", appelsCH := "", roamData := "unlimited",
    roamMin := "", countries := "", ty := "" }

/-- The `normRow` arguments with an empty extracted country match (C8). -/
def emptyCountriesArgs : V2.NormArgs :=
  { ref := "", operator := "Yallo", title := "Offre", price := "", discount := "",
    hasTV := false, speedVal := "", speedUnit := "", smsCH := "", appelsCH := "",
    roamData := "", roamMin := "", countries := "", ty := "1 SIM ( Mobile )" }

/-- A third-variant row with an empty `Pays voisins inclus` field (C8). -/
def emptyCountriesRow : V3.Row :=
  { ref := "", operator := "Yallo", nom := "Offre", prix := none, prixInitial := none,
    rabais := "", tv := "Non", speed := "", sms := "", appels := "", roamData := "",
    roamMin := "", pays := "", typeOffre := "1 SIM ( Mobile )", expiration := "",
    engagement := "" }

-- Parsing lemmas for canonical decimal fields -------------------------------

theorem takeDigits_all (l : List Char) (h : ∀ c ∈ l, isDigitCh c = true) :
    takeDigits l = (l, []) := by
  induction l with
  | nil => rfl
  | cons c r ih =>
    have hc : isDigitCh c = true := h c (List.mem_cons_self c r)
    have hr := ih (fun x hx => h x (List.mem_cons_of_mem c hx))
    simp [takeDigits, hc, hr]

theorem takeDigits_append (ds : List Char) (x : Char) (r : List Char)
    (hds : ∀ c ∈ ds, isDigitCh c = true) (hx : isDigitCh x = false) :
    takeDigits (ds ++ x :: r) = (ds, x :: r) := by
  induction ds with
  | nil => simp [takeDigits, hx]
  | cons c t ih =>
    have hc := hds c (List.mem_cons_self c t)
    have ht := ih (fun y hy => hds y (List.mem_cons_of_mem c hy))
    simp [takeDigits, hc, ht]

theorem unsignedNumAt_digits (b : Bool) (ds : List Char) (hne : ds ≠ [])
    (h : ∀ c ∈ ds, isDigitCh c = true) :
    unsignedNumAt b ds = some ((digitsVal ds : ℚ), []) := by
  obtain ⟨d, t, rfl⟩ := List.exists_cons_of_ne_nil hne
  simp [unsignedNumAt, takeDigits_all (d :: t) h]

theorem unsignedNumAt_digits_frac (b : Bool) (ds fs : List Char) (hds : ds ≠ [])
    (hfs : fs ≠ []) (h1 : ∀ c ∈ ds, isDigitCh c = true)
    (h2 : ∀ c ∈ fs, isDigitCh c = true) :
    unsignedNumAt b (ds ++ '.' :: fs) = some (mkDecVal ds fs, []) := by
  obtain ⟨d, t, rfl⟩ := List.exists_cons_of_ne_nil hds
  obtain ⟨f, u, rfl⟩ := List.exists_cons_of_ne_nil hfs
  have hA := takeDigits_append (d :: t) '.' (f :: u) h1 (by decide)
  rw [List.cons_append] at hA
  have hB := takeDigits_all (f :: u) h2
  simp [unsignedNumAt, hA, hB, List.drop_length]

theorem signedNumAt_digit (b : Bool) (d : Char) (r : List Char) (hd : isDigitCh d = true) :
    signedNumAt b (d :: r) = unsignedNumAt b (d :: r) := by
  have hne : (d == '-') = false := by
    refine beq_eq_false_iff_ne.mpr ?_
    intro h; subst h; exact absurd hd (by decide)
  simp [signedNumAt, hne]

theorem firstNumSearch_digit (b : Bool) (d : Char) (r : List Char) (hd : isDigitCh d = true)
    (q : ℚ) (rest : List Char) (h : unsignedNumAt b (d :: r) = some (q, rest)) :
    firstNumSearch b (d :: r) = some q := by
  simp [firstNumSearch, signedNumAt_digit b d r hd, h]

theorem digitsShape_head (s : String) (h : DigitsShape s) :
    ∃ d r, s.data = d :: r ∧ isDigitCh d = true := by
  obtain ⟨ds, fs, hne, hds, _, hcase⟩ := h
  obtain ⟨d, t, rfl⟩ := List.exists_cons_of_ne_nil hne
  have hd := hds d (List.mem_cons_self d t)
  rcases hcase with hc | ⟨_, hc⟩
  · exact ⟨d, t, hc, hd⟩
  · exact ⟨d, t ++ '.' :: fs, by simpa using hc, hd⟩

theorem digitsShape_unsigned (b : Bool) (s : String) (h : DigitsShape s) :
    unsignedNumAt b s.data = some (decFieldValue s, []) := by
  obtain ⟨ds, fs, hne, hds, hfs, hcase⟩ := h
  unfold decFieldValue
  rcases hcase with hd | ⟨hfne, hd⟩
  · rw [hd, unsignedNumAt_digits b ds hne hds, unsignedNumAt_digits false ds hne hds]
  · rw [hd, unsignedNumAt_digits_frac b ds fs hne hfne hds hfs,
      unsignedNumAt_digits_frac false ds fs hne hfne hds hfs]

theorem numberish_digitsShape (s : String) (h : DigitsShape s) :
    V3.numberish s = some (decFieldValue s) := by
  obtain ⟨d, r, hdr, hd⟩ := digitsShape_head s h
  have hu := digitsShape_unsigned true s h
  rw [hdr] at hu
  unfold V3.numberish
  rw [hdr]
  exact firstNumSearch_digit true d r hd _ _ hu

theorem listContainsSub_head_mem (l pat : List Char) (c : Char)
    (h : listContainsSub l (c :: pat) = true) : c ∈ l := by
  induction l with
  | nil => simp [listContainsSub] at h
  | cons a rest ih =>
    simp only [listContainsSub, Bool.or_eq_true] at h
    rcases h with h | h
    · simp only [listStartsWith, Bool.and_eq_true] at h
      rw [← eq_of_beq h.1]
      exact List.mem_cons_self a rest
    · exact List.mem_cons_of_mem a (ih h)

theorem charLowerFr_digit (c : Char) (h : isDigitCh c = true) : charLowerFr c = c := by
  have h' : 48 ≤ c.toNat ∧ c.toNat ≤ 57 := by simpa [isDigitCh] using h
  have h1 : ¬ 65 ≤ c.toNat := by omega
  have h2 : ¬ 192 ≤ c.toNat := by omega
  simp [charLowerFr, h1, h2]

theorem digitsShape_chars (s : String) (h : DigitsShape s) :
    ∀ c ∈ s.data, isDigitCh c = true ∨ c = '.' := by
  obtain ⟨ds, fs, hne, hds, hfs, hcase⟩ := h
  intro c hcm
  rcases hcase with hc | ⟨_, hc⟩
  · rw [hc] at hcm; exact Or.inl (hds c hcm)
  · rw [hc] at hcm
    rcases List.mem_append.mp hcm with h1 | h2
    · exact Or.inl (hds c h1)
    · rcases List.mem_cons.mp h2 with h3 | h4
      · exact Or.inr h3
      · exact Or.inl (hfs c h4)

theorem digitsShape_no_illimitPat (s : String) (h : DigitsShape s) (p : String)
    (hp : p.data.head? = some 'i') : strContainsSub (jsToLower s) p = false := by
  cases hq : strContainsSub (jsToLower s) p with
  | false => rfl
  | true =>
    exfalso
    have hall := digitsShape_chars s h
    have hq' : listContainsSub (s.data.map charLowerFr) p.data = true := hq
    match hp2 : p.data with
    | [] => rw [hp2] at hp; exact absurd hp (by simp)
    | c :: pr =>
      rw [hp2] at hp hq'
      have hc : c = 'i' := by simpa using hp
      subst hc
      have hmem := listContainsSub_head_mem _ _ _ hq'
      obtain ⟨c0, hc0mem, hc0⟩ := List.mem_map.mp hmem
      rcases hall c0 hc0mem with hdig | hdot
      · rw [charLowerFr_digit c0 hdig] at hc0
        subst hc0
        exact absurd hdig (by decide)
      · subst hdot
        exact absurd hc0 (by decide)

theorem digitsShape_ne_illimite (s : String) (h : DigitsShape s) : s ≠ "Illimité" := by
  intro he
  have h1 := digitsShape_no_illimitPat s h "illimité" (by decide)
  rw [he] at h1
  exact absurd h1 (by decide)

theorem replaceFirstComma_no_comma (l : List Char) (h : ∀ c ∈ l, (c == ',') = false) :
    replaceFirstComma l = l := by
  induction l with
  | nil => rfl
  | cons c r ih =>
    have hc := h c (List.mem_cons_self c r)
    simp [replaceFirstComma, hc, ih (fun x hx => h x (List.mem_cons_of_mem c hx))]

theorem numCO2_digitsShape (s : String) (h : DigitsShape s) :
    V3.numCO2 s = JsNum.fin (decFieldValue s) := by
  have hnoc : ∀ c ∈ s.data, (c == ',') = false := by
    intro c hcm
    refine beq_eq_false_iff_ne.mpr ?_
    intro he; subst he
    rcases digitsShape_chars s h ',' hcm with hd | hd
    · exact absurd hd (by decide)
    · exact absurd hd (by decide)
  obtain ⟨d, r, hdr, hd⟩ := digitsShape_head s h
  have hu := digitsShape_unsigned false s h
  unfold V3.numCO2
  rw [digitsShape_no_illimitPat s h "illimité" (by decide),
    replaceFirstComma_no_comma s.data hnoc]
  rw [hdr] at hu ⊢
  rw [firstNumSearch_digit false d r hd _ _ hu]
  rfl

-- Evaluation lemmas for JS rounding -----------------------------------------

theorem ratFloor_eq_intFloor (q : ℚ) : Rat.floor q = ⌊q⌋ := rfl

theorem jsRound_eval (q : ℚ) (n : ℤ) (h1 : (n : ℚ) ≤ q + 1/2) (h2 : q + 1/2 < n + 1) :
    jsRound q = n := by
  unfold jsRound
  rw [ratFloor_eq_intFloor]
  exact Int.floor_eq_iff.mpr ⟨h1, h2⟩

theorem round1_eval (q : ℚ) (n : ℤ) (h1 : (n : ℚ) ≤ q * 10 + 1/2) (h2 : q * 10 + 1/2 < n + 1) :
    round1 q = (n : ℚ) / 10 := by
  unfold round1
  rw [jsRound_eval (q * 10) n h1 h2]

-- Helper lemmas for the dedup loop and CSV escaping --------------------------

theorem findFreeRef_spec (seen : List String) (ref : String) :
    ∀ fuel k r, V3.findFreeRef seen ref fuel k = some r →
      r ∉ seen ∧ ∃ j, r = V3.candidateRef ref j := by
  intro fuel
  induction fuel with
  | zero => intro k r h; exact absurd h (by simp [V3.findFreeRef])
  | succ n ih =>
    intro k r h
    unfold V3.findFreeRef at h
    by_cases hc : V3.candidateRef ref k ∈ seen
    · rw [if_pos hc] at h; exact ih (k + 1) r h
    · rw [if_neg hc] at h
      obtain rfl := Option.some.inj h
      exact ⟨hc, k, rfl⟩

theorem dquoteL_hasSpecial (l : List Char) (h : hasSpecialL l = true) :
    hasSpecialL (dquoteL l) = true := by
  induction l with
  | nil => exact absurd h (by simp [hasSpecialL])
  | cons c r ih =>
    by_cases hc : c = '"'
    · subst hc
      simp [dquoteL, hasSpecialL]
    · have hcb : (c == '"') = false := beq_eq_false_iff_ne.mpr hc
      simp only [hasSpecialL, hcb, Bool.or_false, Bool.or_eq_true] at h
      simp only [dquoteL, hcb, Bool.false_eq_true, if_false, hasSpecialL, Bool.or_false,
        Bool.or_eq_true]
      rcases h with (h | h) | h
      · exact Or.inl (Or.inl h)
      · exact Or.inl (Or.inr h)
      · exact Or.inr (ih h)

-- Claim theorems -------------------------------------------------------------

/-- C1 (amended): for every canonical Mobile row — category string
`1 SIM ( Mobile )`, decimal-or-empty speed and roaming-data fields, the other
unlimited-signal fields either exactly the sentinel `Illimité` or free of any
unlimited token — the third variant's `calculateCO2` returns exactly the CO2
sum the spec states, rounded to one decimal: (12.5 if speed ≤ 300, empty
speed reading as 0, else 14.5) + 0.5 for unlimited calls + 0.5 for unlimited
SMS + (roaming GB × 0.35 if finite, else 18.3) − 12.2 for unlimited roaming
minutes − 0.5 if the lowercased name contains "noir" or "black". -/
theorem c1_mobile_co2_matches_spec_formula (row : V3.Row)
    (hty : row.typeOffre = "1 SIM ( Mobile )")
    (hsp : row.speed = "" ∨ DigitsShape row.speed)
    (hap : row.appels = "Illimité" ∨ strContainsSub (jsToLower row.appels) "illimité" = false)
    (hsm : row.sms = "Illimité" ∨ strContainsSub (jsToLower row.sms) "illimité" = false)
    (hrd : row.roamData = "Illimité" ∨ row.roamData = "" ∨ DigitsShape row.roamData)
    (hrm : row.roamMin = "Illimité" ∨ strContainsSub (jsToLower row.roamMin) "illimit" = false) :
    V3.calculateCO2 row = some (co2MobileSpec (decFieldValue row.speed)
      (row.appels == "Illimité") (row.sms == "Illimité")
      (if row.roamData = "Illimité" then none else some (decFieldValue row.roamData))
      (row.roamMin == "Illimité")
      (strContainsSub (jsToLower row.nom) "noir" || strContainsSub (jsToLower row.nom) "black")) := by
  have eqCalls : strContainsSub (jsToLower row.appels) "illimité" = (row.appels == "Illimité") := by
    rcases hap with h | h
    · rw [h]; decide
    · have hne : row.appels ≠ "Illimité" := by
        intro he; rw [he] at h; exact absurd h (by decide)
      rw [h, beq_eq_false_iff_ne.mpr hne]
  have eqSms : strContainsSub (jsToLower row.sms) "illimité" = (row.sms == "Illimité") := by
    rcases hsm with h | h
    · rw [h]; decide
    · have hne : row.sms ≠ "Illimité" := by
        intro he; rw [he] at h; exact absurd h (by decide)
      rw [h, beq_eq_false_iff_ne.mpr hne]
  have eqMin : strContainsSub (jsToLower row.roamMin) "illimit" = (row.roamMin == "Illimité") := by
    rcases hrm with h | h
    · rw [h]; decide
    · have hne : row.roamMin ≠ "Illimité" := by
        intro he; rw [he] at h; exact absurd h (by decide)
      rw [h, beq_eq_false_iff_ne.mpr hne]
  have speedEq : (V3.numberish row.speed).getD 0 = decFieldValue row.speed := by
    rcases hsp with h | h
    · rw [h]; rfl
    · rw [numberish_digitsShape _ h]; rfl
  have roamEq : (match V3.numCO2 row.roamData with
      | JsNum.inf => (18.3 : ℚ) | JsNum.fin g => g * 0.35) =
      (match (if row.roamData = "Illimité" then none else some (decFieldValue row.roamData)) with
      | none => (18.3 : ℚ) | some g => g * 0.35) := by
    rcases hrd with h | h | h
    · rw [h]
      have hx : V3.numCO2 "Illimité" = JsNum.inf := by decide
      rw [hx, if_pos rfl]
    · rw [h]
      have hx : V3.numCO2 "" = JsNum.fin 0 := by decide
      have hy : decFieldValue "" = 0 := rfl
      rw [hx, if_neg (by decide : ¬("" : String) = "Illimité"), hy]
    · rw [numCO2_digitsShape _ h, if_neg (digitsShape_ne_illimite _ h)]
  have h1 : strContainsSub "1 SIM ( Mobile )" "1 " = true := by decide
  simp only [V3.calculateCO2, co2MobileSpec, hty, h1, eqCalls, eqSms, eqMin, speedEq, roamEq,
    if_true]

/-- C1 witness: the claim's own example — Mobile, speed 300, unlimited
calls, SMS, roaming data and minutes, name "Yallo Black" — gets estimate
19.1 from the third variant's `calculateCO2`. -/
theorem c1_mobile_co2_witness_yallo_black :
    V3.calculateCO2 yalloBlackRow = some (191/10) := by
  have h := c1_mobile_co2_matches_spec_formula yalloBlackRow rfl
    (Or.inr ⟨['3', '0', '0'], [], by decide, by decide, by decide, Or.inl rfl⟩)
    (Or.inl rfl) (Or.inl rfl) (Or.inl rfl) (Or.inl rfl)
  rw [h]
  have hs : decFieldValue "300" = 300 := by decide
  show some (co2MobileSpec (decFieldValue "300") ("Illimité" == "Illimité")
    ("Illimité" == "Illimité")
    (if ("Illimité" : String) = "Illimité" then none else some (decFieldValue "Illimité"))
    ("Illimité" == "Illimité")
    (strContainsSub (jsToLower "Yallo Black") "noir" ||
      strContainsSub (jsToLower "Yallo Black") "black")) = some (191/10)
  rw [hs, if_pos rfl]
  have hb1 : ("Illimité" == "Illimité") = true := by decide
  have hb2 : (strContainsSub (jsToLower "Yallo Black") "noir" ||
      strContainsSub (jsToLower "Yallo Black") "black") = true := by decide
  rw [hb1, hb2]
  simp only [co2MobileSpec, if_true]
  rw [round1_eval _ 191 (by norm_num) (by norm_num)]
  norm_num

/-- C1 counterexample: on the claim's own example row, the `part_000`
variant returns 13.0, not 19.1 — its rows store the numeric `Infinity` for
unlimited roaming, which `numForCO2` maps to 0 instead of the unlimited
branch, so neither the +18.3 roaming-data term nor the −12.2
roaming-minutes offset applies. -/
theorem c1_mobile_co2_p0_counterexample :
    P0.calculateCO2 p0YalloBlackRow ≠ some (191/10) := by
  have hval : P0.calculateCO2 p0YalloBlackRow = some 13 := by
    have h1 : strContainsSub "1 SIM ( Mobile )" "1 " = true := by decide
    have hap : strContainsSub (jsToLower "Illimité") "illimit" = true := by decide
    have hroam : P0.numForCO2 P0.JsVal.inf = JsNum.fin 0 := by decide
    have hname : (strContainsSub (jsToLower "Yallo Black") "noir" ||
        strContainsSub (jsToLower "Yallo Black") "black") = true := by decide
    have hsp : P0.jsValTruthyLe (P0.JsVal.num 300) 300 = true := by decide
    have hni : (JsNum.fin (0 : ℚ) = JsNum.inf) = False :=
      eq_false (fun hx => JsNum.noConfusion hx)
    simp only [P0.calculateCO2, p0YalloBlackRow, h1, hap, hroam, hname, hsp, if_true, hni,
      if_false]
    rw [round1_eval _ 130 (by norm_num) (by norm_num)]
    norm_num
  rw [hval]
  intro hcontra
  have h13 : (13 : ℚ) = 191/10 := Option.some.inj hcontra
  norm_num at h13

/-- C2: the `part_000` `generateReference` is not deterministic across runs
— its SHA-1 input interpolates `String(Date.now()).slice(0, 10)` (the epoch
seconds) and the price, so two invocations with identical operator, offer
name and price but timestamps one second apart produce different references.
This theorem evaluates the code at that failing input. -/
theorem c2_generateReference_hashes_timestamp :
    P0.generateReference "Yallo" "Swiss Flat" 10 1700000000000 ≠
      P0.generateReference "Yallo" "Swiss Flat" 10 1700000001000 := by
  have hr : jsRound ((10 : ℚ) * 100) = 1000 := jsRound_eval _ 1000 (by norm_num) (by norm_num)
  have hdr : decimalRepr (10 : ℚ) = "10" := by decide
  simp only [P0.generateReference, hr, hdr]
  decide

/-- C3: every reference the deduplicator assigns is distinct from all
references previously assigned in the run, the seen set grows by exactly the
assigned reference, and the assigned reference is either the base reference
or the base with a numeric suffix `_n`, `n ≥ 2`. -/
theorem c3_ensureUniqueRef_assigns_fresh (seen : List String) (ref r : String)
    (seen' : List String) (h : V3.ensureUniqueRef seen ref = some (r, seen')) :
    r ∉ seen ∧ seen' = r :: seen ∧
      (r = ref ∨ ∃ n : ℕ, 2 ≤ n ∧ r = ref ++ "_" ++ Nat.repr n) := by
  unfold V3.ensureUniqueRef at h
  cases hf : V3.findFreeRef seen ref (seen.length + 1) 0 with
  | none => rw [hf] at h; exact absurd h (by simp)
  | some r0 =>
    rw [hf] at h
    have h2 := Option.some.inj h
    have hr : r0 = r := congrArg Prod.fst h2
    have hs : r0 :: seen = seen' := congrArg Prod.snd h2
    subst hr
    obtain ⟨hnot, j, hj⟩ := findFreeRef_spec seen ref (seen.length + 1) 0 r0 hf
    refine ⟨hnot, hs.symm, ?_⟩
    cases j with
    | zero => exact Or.inl hj
    | succ k => exact Or.inr ⟨k + 2, by omega, hj⟩

/-- C3 witness: with base reference `X` already assigned, a second offer
with the same base is emitted as `X_2`; both are present and distinct. -/
theorem c3_ensureUniqueRef_witness :
    V3.ensureUniqueRef ["X"] "X" = some ("X_2", ["X_2", "X"]) ∧
      ("X_2" ∉ (["X"] : List String) ∧ (["X_2", "X"] : List String) = "X_2" :: ["X"] ∧
        ("X_2" = "X" ∨ ∃ n : ℕ, 2 ≤ n ∧ "X_2" = "X" ++ "_" ++ Nat.repr n)) := by
  have he : V3.ensureUniqueRef ["X"] "X" = some ("X_2", ["X_2", "X"]) := by decide
  exact ⟨he, c3_ensureUniqueRef_assigns_fresh ["X"] "X" "X_2" ["X_2", "X"] he⟩

/-- C4: the CO2 estimate is not clamped at 0 in the `calculateCO2` variants:
on a canonical Mobile row with empty speed and roaming data, unlimited
roaming minutes and "black" in the name, the third variant's `calculateCO2`
returns −0.2 (12.5 − 12.2 − 0.5); only the second variant's `estimateCO2`
applies the required `Math.max(0, …)` clamp and returns 0 on the same row. -/
theorem c4_calculateCO2_negative_result :
    V3.calculateCO2 negRowV3 = some (-(1/5)) ∧ V2.estimateCO2 negRowV2 = 0 := by
  constructor
  · have h1 : strContainsSub "1 SIM ( Mobile )" "1 " = true := by decide
    have hap : strContainsSub (jsToLower "") "illimité" = false := by decide
    have hroam : V3.numCO2 "" = JsNum.fin 0 := by decide
    have hmin : strContainsSub (jsToLower "Illimité") "illimit" = true := by decide
    have hname : (strContainsSub (jsToLower "black friday") "noir" ||
        strContainsSub (jsToLower "black friday") "black") = true := by decide
    have hnum : V3.numberish "" = none := by decide
    simp only [V3.calculateCO2, negRowV3, h1, hap, hroam, hmin, hname, hnum,
      Option.getD_none, if_true, Bool.false_eq_true, if_false]
    rw [if_pos (by norm_num : (0 : ℚ) ≤ 300)]
    rw [round1_eval _ (-2) (by norm_num) (by norm_num)]
    norm_num
  · have h1 : strStartsWith (cleanV2 "1 SIM ( Mobile )") "1 " = true := by decide
    have hap : strContainsSub (jsToLower (cleanV2 "")) "illimité" = false := by decide
    have hroam : V2.toNum (cleanV2 "") = JsNum.fin 0 := by decide
    have hmin : V2.toNum (cleanV2 "Illimité") = JsNum.inf := by decide
    have hsp : V2.jsNumLe (V2.toNum "") 300 = true := by decide
    have hname : (strContainsSub (jsToLower (cleanV2 "black friday")) "noir" ||
        strContainsSub (jsToLower (cleanV2 "black friday")) "black") = true := by decide
    simp only [V2.estimateCO2, negRowV2, h1, hap, hroam, hmin, hsp, hname, if_true,
      Bool.false_eq_true, if_false]
    rw [round1_eval _ (-2) (by norm_num) (by norm_num)]
    rw [max_eq_left (by norm_num : ((-2 : ℤ) : ℚ)/10 ≤ 0)]

/-- C5 (amended): for every row whose offer-type string contains none of the
category markers `1 `, `2 `, `3 `, both `calculateCO2` variants
(`scrape.mjs` third variant and `part_000`) return null. -/
theorem c5_calculateCO2_other_category_null (r3 : V3.Row) (r0 : P0.CalcRow)
    (h1 : strContainsSub r3.typeOffre "1 " = false)
    (h2 : strContainsSub r3.typeOffre "2 " = false)
    (h3 : strContainsSub r3.typeOffre "3 " = false)
    (h4 : strContainsSub r0.typeOffre "1 " = false)
    (h5 : strContainsSub r0.typeOffre "2 " = false)
    (h6 : strContainsSub r0.typeOffre "3 " = false) :
    V3.calculateCO2 r3 = none ∧ P0.calculateCO2 r0 = none := by
  constructor
  · simp [V3.calculateCO2, h1, h2, h3]
  · simp [P0.calculateCO2, h4, h5, h6]

/-- C5 witness: rows with offer type `Autre` get no estimate from either
`calculateCO2` variant. -/
theorem c5_other_category_witness :
    V3.calculateCO2 otherRowV3 = none ∧ P0.calculateCO2 otherRowP0 = none :=
  c5_calculateCO2_other_category_null otherRowV3 otherRowP0 (by decide) (by decide)
    (by decide) (by decide) (by decide) (by decide)

/-- C5 counterexample: the second variant's `estimateCO2` does not return
null for a row outside the three categories — it returns the number 0
(line 366 is `return 0`, and `normRow` writes that 0 into the CO2 column). -/
theorem c5_estimateCO2_returns_zero_counterexample : V2.estimateCO2 otherRowV2 = 0 := by
  have h1 : strStartsWith (cleanV2 "Autre") "1 " = false := by decide
  have h2 : strStartsWith (cleanV2 "Autre") "2 " = false := by decide
  have h3 : strStartsWith (cleanV2 "Autre") "3 " = false := by decide
  simp [V2.estimateCO2, otherRowV2, h1, h2, h3]

/-- C6 (amended): the third variant's `canonicalize` rewrites each of the
unlimited variants "illimité", "unlimited" and "Illimité " (trailing space)
in the roaming fields to exactly the sentinel `Illimité`. -/
theorem c6_canonicalize_unlimited_variants (row : V3.Row) (page : String)
    (hd : row.roamData = "illimité" ∨ row.roamData = "unlimited" ∨ row.roamData = "Illimité ")
    (hm : row.roamMin = "illimité" ∨ row.roamMin = "unlimited" ∨ row.roamMin = "Illimité ") :
    (V3.canonicalize row page).roamData = "Illimité" ∧
      (V3.canonicalize row page).roamMin = "Illimité" := by
  have hrd : (V3.canonicalize row page).roamData = V3.normInf row.roamData := rfl
  have hrm : (V3.canonicalize row page).roamMin = V3.normInf row.roamMin := rfl
  constructor
  · rw [hrd]
    rcases hd with h | h | h <;> rw [h] <;> decide
  · rw [hrm]
    rcases hm with h | h | h <;> rw [h] <;> decide

/-- C6 witness: a row carrying "unlimited" and "Illimité " in the roaming
fields is canonicalised to the sentinel in both. -/
theorem c6_canonicalize_unlimited_witness :
    (V3.canonicalize unlimRow "").roamData = "Illimité" ∧
      (V3.canonicalize unlimRow "").roamMin = "Illimité" :=
  c6_canonicalize_unlimited_variants unlimRow "" (Or.inr (Or.inl rfl)) (Or.inr (Or.inr rfl))

/-- C6 counterexample: the second variant's `normRow` tests only
`/illimit/i`, so the English variant "unlimited" is left in the
source-language form instead of being rewritten to the sentinel. -/
theorem c6_normRow_leaves_unlimited_counterexample :
    (V2.normRow unlimArgs).roamData = "unlimited" := by decide

/-- C7 (amended): when no explicit percent token is found and both a current
and a previous price were extracted with non-zero values (JS truthiness),
`extractByRegex` infers `discount = round((1 − now/old) × 100)`. -/
theorem c7_discount_inference (text : String) (p q : ℚ)
    (hpc : V3.percentTokSearch (cleanV3 text).data = none)
    (hp : V3.priceNowOf (cleanV3 text) = some p) (hp0 : p ≠ 0)
    (hq : V3.priceOldOf (cleanV3 text) = some q) (hq0 : q ≠ 0) :
    V3.extractDiscount text = Int.repr (jsRound ((1 - p / q) * 100)) := by
  simp only [V3.extractDiscount, hpc, hp, hq]
  rw [if_pos ⟨hp0, hq0⟩]

/-- C7 witness: current price 25, previous price 50, no percent token →
discount "50". -/
theorem c7_discount_inference_witness :
    V3.extractDiscount "CHF 25 au lieu de 50" = "50" := by
  rw [c7_discount_inference "CHF 25 au lieu de 50" 25 50 (by decide) (by decide) (by norm_num)
    (by decide) (by norm_num)]
  rw [jsRound_eval ((1 - 25/50) * 100) 50 (by norm_num) (by norm_num)]
  decide

/-- C7 counterexample: on "CHF 0 au lieu de 50" both prices are extracted
(0 and 50) and no percent token is present, yet the discount is the empty
string, not `round((1 − 0/50) × 100) = 100` — the JS guard
`priceNow && priceOld` treats the extracted price 0 as absent. -/
theorem c7_zero_price_counterexample :
    V3.priceNowOf (cleanV3 "CHF 0 au lieu de 50") = some 0 ∧
      V3.priceOldOf (cleanV3 "CHF 0 au lieu de 50") = some 50 ∧
      V3.percentTokSearch (cleanV3 "CHF 0 au lieu de 50").data = none ∧
      V3.extractDiscount "CHF 0 au lieu de 50" ≠ Int.repr (jsRound ((1 - 0 / 50) * 100)) := by
  refine ⟨by decide, by decide, by decide, ?_⟩
  have hd : V3.extractDiscount "CHF 0 au lieu de 50" = "" := by
    simp only [V3.extractDiscount]
    rw [show V3.percentTokSearch (cleanV3 "CHF 0 au lieu de 50").data = none from by decide,
      show V3.priceNowOf (cleanV3 "CHF 0 au lieu de 50") = some 0 from by decide,
      show V3.priceOldOf (cleanV3 "CHF 0 au lieu de 50") = some 50 from by decide]
    exact if_neg (fun hcon => hcon.1 rfl)
  rw [hd, jsRound_eval ((1 - 0 / 50) * 100) 100 (by norm_num) (by norm_num)]
  decide

/-- C8 (amended): the second variant's `normRow` rewrites an empty
included-countries extraction to the literal "Aucun". -/
theorem c8_normRow_empty_countries_aucun (a : V2.NormArgs) (h : a.countries = "") :
    (V2.normRow a).pays = "Aucun" := by
  simp [V2.normRow, h]

/-- C8 witness: `normRow` on arguments with an empty country match yields
"Aucun" in the canonical field. -/
theorem c8_normRow_empty_countries_witness :
    (V2.normRow emptyCountriesArgs).pays = "Aucun" :=
  c8_normRow_empty_countries_aucun _ rfl

/-- C8 counterexample: the third variant's `canonicalize` never touches the
`Pays voisins inclus` field, so a row whose extraction matched no country is
emitted with the empty string, not "Aucun". -/
theorem c8_canonicalize_empty_countries_counterexample :
    emptyCountriesRow.pays = "" ∧ (V3.canonicalize emptyCountriesRow "").pays ≠ "Aucun" :=
  ⟨rfl, by decide⟩

/-- C9: in both CSV serialisers (`csvEscape` of `part_000` and the per-cell
logic of `toCSV` in the third variant), every field value containing a
comma, double quote or newline is emitted wrapped in double quotes with each
internal double quote doubled. -/
theorem c9_csv_escaping (v : String) (h : hasSpecialL v.data = true) :
    P0.csvEscape v = "\"" ++ String.mk (dquoteL v.data) ++ "\"" ∧
      V3.csvCell v = "\"" ++ String.mk (dquoteL v.data) ++ "\"" := by
  constructor
  · simp [P0.csvEscape, h]
  · have h2 : hasSpecialL (String.mk (dquoteL v.data)).data = true := dquoteL_hasSpecial v.data h
    simp [V3.csvCell, h2]

/-- C9 witness: the field value from the claim serialises as stated, in both
serialisers. -/
theorem c9_csv_escaping_witness :
    P0.csvEscape "Offer, \"Black\" edition" = "\"Offer, \"\"Black\"\" edition\"" ∧
      V3.csvCell "Offer, \"Black\" edition" = "\"Offer, \"\"Black\"\" edition\"" := by
  have h := c9_csv_escaping "Offer, \"Black\" edition" (by decide)
  exact ⟨by rw [h.1]; decide, by rw [h.2]; decide⟩

/-- C10: for any offer-type string that does not start with `1`, `2` or `3`
(including the empty string) `typeCode` falls back to `TX`, and `makeRef`
still returns the well-formed reference `OPERATOR_TX_NAMESLUG_HASH`. -/
theorem c10_typeCode_fallback_makeRef_total (t operator title : String) (u : V3.Url)
    (h1 : strStartsWith t "1" = false) (h2 : strStartsWith t "2" = false)
    (h3 : strStartsWith t "3" = false) :
    V3.typeCode t = "TX" ∧
      V3.makeRef operator title u t =
        strTake (V3.slugUpper operator) 8 ++ "_" ++ "TX" ++ "_" ++
          strTake (V3.slugUpper title) 24 ++ "_" ++
          strTake (V3.toHex8 (V3.fnv32aVal (u.pathname ++ "|" ++
            strTake (V3.slugUpper title) 24))) 8 := by
  have htc : V3.typeCode t = "TX" := by simp [V3.typeCode, h1, h2, h3]
  exact ⟨htc, by simp [V3.makeRef, htc]⟩

/-- C10 witness: the empty offer-type string maps to `TX` and still yields a
well-formed reference. -/
theorem c10_typeCode_fallback_witness :
    V3.typeCode "" = "TX" ∧
      V3.makeRef "Yallo" "Offre" ⟨"/fr/mobile", ""⟩ "" =
        strTake (V3.slugUpper "Yallo") 8 ++ "_" ++ "TX" ++ "_" ++
          strTake (V3.slugUpper "Offre") 24 ++ "_" ++
          strTake (V3.toHex8 (V3.fnv32aVal ("/fr/mobile" ++ "|" ++
            strTake (V3.slugUpper "Offre") 24))) 8 :=
  c10_typeCode_fallback_makeRef_total "" "Yallo" "Offre" ⟨"/fr/mobile", ""⟩ (by decide)
    (by decide) (by decide)
